import Mathlib

/-! Shallow embedding of the Quota-Checker discovery-and-store pipeline.

Modelling conventions, used throughout:
- JavaScript objects used as string-keyed records become association lists,
  with a lookup returning the first binding and an insert that overwrites the
  binding of an existing key (JS property assignment).
- JavaScript numbers become rationals; absent (undefined) values become Option.
- File-system state for the quota JSON file is modelled by threading the parsed
  QuotaStore value: readQuotaStore returns the current value and writeQuotaStore
  replaces it, so upsertAccountQuota becomes a pure state transformer.
- Wall-clock reads (Date.now) become an explicit now parameter.
- Network and OS-command effects are modelled by passing the observed outcome
  (HTTP response / error / timeout, captured stdout or command failure) as an
  argument to the function under verification.
-/

/-- Lookup in a JS-style record modelled as an association list: the value of
the first binding whose key matches. -/
def lookupRec {V : Type} (r : List (String × V)) (k : String) : Option V :=
  (r.find? (fun p => p.1 == k)).map (fun p => p.2)

/-- JS property assignment on a record: overwrite the binding of an existing
key, otherwise append a new binding. -/
def insertRec {V : Type} : List (String × V) → String → V → List (String × V)
  | [], k, v => [(k, v)]
  | p :: r, k, v => if p.1 == k then (k, v) :: r else p :: insertRec r k v

/-- Truthiness of an optional JS number: defined and nonzero. -/
def optNumTruthy (x : Option ℚ) : Bool :=
  match x with
  | some q => q != 0
  | none => false

/- Quota data types, from src/lib/quota/types.ts. -/

/-- ModelQuotaInfo from src/lib/quota/types.ts. -/
structure ModelQuotaInfo where
  label : String
  modelId : String
  remainingPercentage : Option ℚ
  isExhausted : Bool
  resetTime : Option String
  timeUntilResetMs : Option ℚ
deriving DecidableEq, Repr

/-- PromptCreditsInfo from src/lib/quota/types.ts. -/
structure PromptCreditsInfo where
  available : ℚ
  monthly : ℚ
  usedPercentage : ℚ
  remainingPercentage : ℚ
deriving DecidableEq, Repr

/-- The method tag of a QuotaSnapshot. -/
inductive QuotaMethod where
  | google
  | local
deriving DecidableEq, Repr

/-- QuotaSnapshot from src/lib/quota/types.ts. -/
structure QuotaSnapshot where
  timestamp : String
  method : QuotaMethod
  email : Option String := none
  planType : Option String := none
  promptCredits : Option PromptCreditsInfo := none
  models : List ModelQuotaInfo
deriving DecidableEq, Repr

/- Storage layer, from src/storage/quota-storage.ts. -/

/-- StoredModelQuota from src/storage/quota-storage.ts. -/
structure StoredModelQuota where
  label : String
  modelId : String
  remainingPercentage : ℚ
  isExhausted : Bool
  resetAt : ℚ
  frozenResetMs : Option ℚ
deriving DecidableEq, Repr

/-- StoredAccountQuota from src/storage/quota-storage.ts; the models record is
an association list keyed by model id. -/
structure StoredAccountQuota where
  lastUpdated : ℚ
  models : List (String × StoredModelQuota)
deriving DecidableEq, Repr

/-- QuotaStore: the parsed contents of quota.json, keyed by email. -/
abbrev QuotaStore : Type := List (String × StoredAccountQuota)

/-- readQuotaStore: with the file contents modelled as the threaded QuotaStore
value, reading returns that value (an absent file is the empty store). -/
def readQuotaStore (fileState : QuotaStore) : QuotaStore := fileState

/-- getAllStoredAccounts from src/storage/quota-storage.ts: returns the whole
store (readQuotaStore, with read failures collapsing to the empty store). -/
def getAllStoredAccounts (fileState : QuotaStore) : QuotaStore :=
  readQuotaStore fileState

/-- toStoredModel from src/storage/quota-storage.ts.  The JS conditional
`model.timeUntilResetMs ? Date.now() + model.timeUntilResetMs : 0` tests number
truthiness (defined and nonzero). -/
def toStoredModel (now : ℚ) (model : ModelQuotaInfo) : StoredModelQuota :=
  let resetAt : ℚ :=
    match model.timeUntilResetMs with
    | some t => if t ≠ 0 then now + t else 0
    | none => 0
  let pct : ℚ := model.remainingPercentage.getD 0
  { label := model.label
    modelId := model.modelId
    remainingPercentage := pct
    isExhausted := model.isExhausted
    resetAt := resetAt
    frozenResetMs := if pct ≥ 1 then model.timeUntilResetMs else none }

/-- The per-model body of the loop in upsertAccountQuota: convert the incoming
model and, when it reports full quota and the account already stored this model
id, preserve the existing truthy resetAt / frozenResetMs. -/
def reconcileModel (now : ℚ) (existingModel : Option StoredModelQuota)
    (model : ModelQuotaInfo) : StoredModelQuota :=
  let stored := toStoredModel now model
  if stored.remainingPercentage ≥ 1 then
    match existingModel with
    | some existing =>
      let s1 := if existing.resetAt ≠ 0 then { stored with resetAt := existing.resetAt }
                else stored
      if optNumTruthy existing.frozenResetMs then
        { s1 with frozenResetMs := existing.frozenResetMs }
      else s1
    | none => stored
  else stored

/-- The loop of upsertAccountQuota building the models record of the upserted
account from the snapshot, against the account previously stored under the
email (if any). -/
def buildModels (now : ℚ) (existingAccount : Option StoredAccountQuota)
    (models : List ModelQuotaInfo) : List (String × StoredModelQuota) :=
  models.foldl
    (fun acc model =>
      insertRec acc model.modelId
        (reconcileModel now
          (existingAccount.bind (fun a => lookupRec a.models model.modelId)) model))
    []

/-- upsertAccountQuota from src/storage/quota-storage.ts as a pure state
transformer on the store (read-modify-write of the JSON file). -/
def upsertAccountQuota (now : ℚ) (email : String) (snapshot : QuotaSnapshot)
    (store : QuotaStore) : QuotaStore :=
  let existingAccount := lookupRec (readQuotaStore store) email
  insertRec store email
    { lastUpdated := now
      models := buildModels now existingAccount snapshot.models }

/-- The reset-timing data (resetAt, frozenResetMs) stored for model id k under
an email, if present. -/
def storedResetData (store : QuotaStore) (email k : String) : Option (ℚ × Option ℚ) :=
  ((lookupRec store email).bind (fun a => lookupRec a.models k)).map
    (fun m => (m.resetAt, m.frozenResetMs))

/-- One call to upsertAccountQuota: its email, snapshot and wall-clock time. -/
structure UpsertOp where
  email : String
  snapshot : QuotaSnapshot
  now : ℚ
deriving DecidableEq, Repr

/-- Apply a sequence of upsertAccountQuota calls to a store. -/
def applyUpserts (s0 : QuotaStore) (ops : List UpsertOp) : QuotaStore :=
  ops.foldl (fun s op => upsertAccountQuota op.now op.email op.snapshot s) s0

/-- The last operation of the sequence addressed to a given email, if any. -/
def lastOpFor? (e : String) : List UpsertOp → Option UpsertOp
  | [] => none
  | op :: ops =>
    match lastOpFor? e ops with
    | some o => some o
    | none => if op.email == e then some op else none

/-- The last model of the list carrying a given model id, if any (later list
entries overwrite earlier ones in the built record). -/
def lastWithId? (k : String) : List ModelQuotaInfo → Option ModelQuotaInfo
  | [] => none
  | m :: ms =>
    match lastWithId? k ms with
    | some m2 => some m2
    | none => if m.modelId == k then some m else none

/- Local parser, from src/lib/local/local-parser.ts, and the ConnectUserStatus
shape from src/lib/local/connect-client.ts. -/

/-- The nested quota object of a ConnectUserStatus model entry (and of
ConnectModelInfo). -/
structure ConnectModelQuota where
  remaining : Option ℚ := none
  limit : Option ℚ := none
  usedPercentage : Option ℚ := none
  remainingPercentage : Option ℚ := none
  resetTime : Option String := none
  timeUntilResetMs : Option ℚ := none
deriving DecidableEq, Repr

/-- A model entry of ConnectUserStatus.quota.models; the same shape as
ConnectModelInfo. -/
structure ConnectModelInfo where
  modelId : String
  displayName : Option String := none
  label : Option String := none
  quota : Option ConnectModelQuota := none
  isExhausted : Option Bool := none
deriving DecidableEq, Repr

/-- The promptCredits object of ConnectUserStatus.quota. -/
structure ConnectPromptCredits where
  used : Option ℚ := none
  limit : Option ℚ := none
  remaining : Option ℚ := none
deriving DecidableEq, Repr

/-- ConnectUserStatus.quota. -/
structure ConnectQuota where
  promptCredits : Option ConnectPromptCredits := none
  models : Option (List ConnectModelInfo) := none
deriving DecidableEq, Repr

/-- ConnectUserStatus from src/lib/local/connect-client.ts (raw debugging
payload omitted). -/
structure ConnectUserStatus where
  isAuthenticated : Option Bool := none
  email : Option String := none
  quota : Option ConnectQuota := none
deriving DecidableEq, Repr

/-- JS string-or: the first operand when truthy (defined and nonempty),
otherwise the fallback. -/
def jsStrOr (a : Option String) (fallback : String) : String :=
  match a with
  | some s => if s ≠ "" then s else fallback
  | none => fallback

/-- parsePromptCredits from src/lib/local/local-parser.ts. -/
def parsePromptCredits (credits : Option ConnectPromptCredits) : Option PromptCreditsInfo :=
  match credits with
  | none => none
  | some c =>
    let limit := c.limit.getD 0
    let remaining := c.remaining.getD limit
    let used := c.used.getD (limit - remaining)
    if limit = 0 then none
    else
      some
        { available := remaining
          monthly := limit
          usedPercentage := if limit > 0 then used / limit else 0
          remainingPercentage := if limit > 0 then remaining / limit else 1 }

/-- parseModelQuota from src/lib/local/local-parser.ts.  The JS expression
`model.isExhausted ?? quota?.remainingPercentage === 0` falls back to the
strict comparison only when isExhausted is undefined. -/
def parseModelQuota (model : ConnectModelInfo) : ModelQuotaInfo :=
  let quota := model.quota
  { label := jsStrOr model.label (jsStrOr model.displayName model.modelId)
    modelId := model.modelId
    remainingPercentage := quota.bind (fun q => q.remainingPercentage)
    isExhausted :=
      match model.isExhausted with
      | some b => b
      | none => decide (quota.bind (fun q => q.remainingPercentage) = some 0)
    resetTime := quota.bind (fun q => q.resetTime)
    timeUntilResetMs := quota.bind (fun q => q.timeUntilResetMs) }

/-- parseLocalQuotaSnapshot from src/lib/local/local-parser.ts; the
`new Date().toISOString()` timestamp is passed in as nowIso. -/
def parseLocalQuotaSnapshot (nowIso : String) (userStatus : ConnectUserStatus) :
    QuotaSnapshot :=
  { timestamp := nowIso
    method := QuotaMethod.local
    email := userStatus.email
    promptCredits :=
      match userStatus.quota with
      | some q =>
        match q.promptCredits with
        | some c => parsePromptCredits (some c)
        | none => none
      | none => none
    models :=
      match userStatus.quota with
      | some q =>
        match q.models with
        | some ms => ms.map parseModelQuota
        | none => []
      | none => [] }

/- ConnectClient.parseModel operates on an untyped JSON value; a small model
of JS values and property access. -/

/-- A JS runtime value as seen by ConnectClient.parseModel. -/
inductive JsValue where
  | null
  | undef
  | bool (b : Bool)
  | num (q : ℚ)
  | str (s : String)
  | obj (fields : List (String × JsValue))
  | arr (elems : List JsValue)

/-- Optional-chaining property access: a field of an object, undefined
otherwise (parseModel only dereferences through the safe operator). -/
def jsGet (v : JsValue) (k : String) : JsValue :=
  match v with
  | JsValue.obj fields => ((fields.find? (fun p => p.1 == k)).map (fun p => p.2)).getD JsValue.undef
  | _ => JsValue.undef

/-- A property access followed by a `typeof x === number` guard. -/
def jsNumField (v : JsValue) (k : String) : Option ℚ :=
  match jsGet v k with
  | JsValue.num q => some q
  | _ => none

/-- A property access followed by a `typeof x === string` guard. -/
def jsStrField (v : JsValue) (k : String) : Option String :=
  match jsGet v k with
  | JsValue.str s => some s
  | _ => none

/-- The guard `typeof model === object && model !== null` of parseModel
(arrays and objects have typeof object). -/
def isObjectNonNull (v : JsValue) : Bool :=
  match v with
  | JsValue.obj _ => true
  | JsValue.arr _ => true
  | _ => false

/-- ConnectClient.parseModel from src/lib/local/connect-client.ts.
parseResetTime reads the wall clock, so it is passed in as a function. -/
def parseModel (parseResetTimeFn : String → Option ℚ) (model : JsValue) : ConnectModelInfo :=
  if isObjectNonNull model then
    let modelOrAlias := jsGet model "modelOrAlias"
    let modelId := (jsStrField modelOrAlias "model").getD "unknown"
    let quotaInfo := jsGet model "quotaInfo"
    let remainingFraction := jsNumField quotaInfo "remainingFraction"
    let resetTime := jsStrField quotaInfo "resetTime"
    let label := jsStrField model "label"
    { modelId := modelId
      displayName := label
      label := label
      quota := some
        { remaining := none
          limit := none
          usedPercentage := remainingFraction.map (fun f => 1 - f)
          remainingPercentage := remainingFraction
          resetTime := resetTime
          timeUntilResetMs :=
            match resetTime with
            | some rt => if rt ≠ "" then parseResetTimeFn rt else none
            | none => none }
      isExhausted := some (decide (remainingFraction = some 0) || decide (remainingFraction = none)) }
  else
    { modelId := "unknown", isExhausted := some false }

/- Port prober, from src/lib/local/port-prober.ts.  The network effect of one
probe is modelled by the observed outcome. -/

/-- The outcome observed by a single HTTP(S) request: a response with a status
code, a connection error, or a timeout. -/
inductive NetOutcome where
  | resp (status : ℕ)
  | err
  | timeout
deriving DecidableEq, Repr

/-- The transport of a probe result. -/
inductive Protocol where
  | https
  | http
deriving DecidableEq, Repr

/-- ProbeResult from src/lib/local/port-prober.ts. -/
structure ProbeResult where
  baseUrl : String
  protocol : Protocol
  port : ℕ
deriving DecidableEq, Repr

/-- What the network does on each port: the outcome of the HTTPS Connect RPC
probe and the outcome of the plaintext GET probe. -/
structure PortBehavior where
  httpsOutcome : NetOutcome
  httpOutcome : NetOutcome
deriving DecidableEq, Repr

/-- probeHttps: only a 200 status confirms the port; any other status, a
connection error or a timeout resolves null. -/
def probeHttps (port : ℕ) (o : NetOutcome) : Option ProbeResult :=
  match o with
  | NetOutcome.resp status =>
    if status = 200 then
      some { baseUrl := "https://127.0.0.1:" ++ toString port, protocol := Protocol.https, port := port }
    else none
  | _ => none

/-- probeHttp: any response (even 404) means a server is there; an error or a
timeout resolves null. -/
def probeHttp (port : ℕ) (o : NetOutcome) : Option ProbeResult :=
  match o with
  | NetOutcome.resp _ =>
    some { baseUrl := "http://localhost:" ++ toString port, protocol := Protocol.http, port := port }
  | _ => none

/-- probePort from src/lib/local/port-prober.ts: HTTPS first, then HTTP. -/
def probePort (behavior : ℕ → PortBehavior) (port : ℕ) : Option ProbeResult :=
  match probeHttps port (behavior port).httpsOutcome with
  | some r => some r
  | none => probeHttp port (behavior port).httpOutcome

/-- probeForConnectAPI from src/lib/local/port-prober.ts: all ports are probed
(concurrently in the source, each settling to a definite Option), and the scan
over the settled results returns the first non-null one in array order. -/
def probeForConnectAPI (behavior : ℕ → PortBehavior) : List ℕ → Option ProbeResult
  | [] => none
  | p :: ps =>
    match probePort behavior p with
    | some r => some r
    | none => probeForConnectAPI behavior ps

/- Status client, from ConnectClient.request in src/lib/local/connect-client.ts. -/

/-- The observed outcome of the single status POST: a response (status code as
reported by Node, possibly undefined, with the collected body text), a request
error with its message, or the 5s timeout. -/
inductive ReqOutcome where
  | response (status : Option ℕ) (body : String)
  | netError (msg : String)
  | timedOut
deriving DecidableEq, Repr

/-- The payload the request resolves with: parsed JSON, or the raw response
text when JSON.parse throws. -/
inductive RawPayload (J : Type) where
  | json (j : J)
  | raw (s : String)
deriving DecidableEq, Repr

/-- The guard `res.statusCode && res.statusCode >= 200 && res.statusCode < 300`
(number truthiness plus range). -/
def jsStatusOk (status : Option ℕ) : Bool :=
  match status with
  | some n => decide (n ≠ 0) && decide (200 ≤ n) && decide (n < 300)
  | none => false

/-- JS string interpolation of a possibly-undefined status code. -/
def statusToString (status : Option ℕ) : String :=
  match status with
  | some n => toString n
  | none => "undefined"

/-- The timeout of the status RPC request options, in milliseconds. -/
def requestTimeoutMs : ℕ := 5000

/-- ConnectClient.request from src/lib/local/connect-client.ts: the response
handler and the error/timeout handlers, as a function of the observed outcome.
JSON.parse is a JS builtin and is passed in as parseJson, with none modelling a
thrown parse error. -/
def connectRequest {J : Type} (parseJson : String → Option J) (path : String)
    (o : ReqOutcome) : Except String (RawPayload J) :=
  match o with
  | ReqOutcome.response status body =>
    if jsStatusOk status then
      match parseJson body with
      | some j => Except.ok (RawPayload.json j)
      | none => Except.ok (RawPayload.raw body)
    else if status = some 404 then
      Except.error ("Endpoint not found: " ++ path)
    else
      Except.error ("HTTP " ++ statusToString status ++ ": " ++ body)
  | ReqOutcome.netError msg => Except.error msg
  | ReqOutcome.timedOut => Except.error "Request timed out"

/- Port detective, from src/lib/local/port-detective.ts.  Each shelled-out
command is modelled by its observed outcome: Except.error for a failed command
(utility missing, nonzero exit), Except.ok with the captured stdout otherwise. -/

/-- JS \s on the characters that occur in command output (ASCII whitespace and
no-break space). -/
def isJsSpace (c : Char) : Bool :=
  c == ' ' || c == '\t' || c == '\n' || c == '\r' || c == '\x0b' || c == '\x0c' || c == ' '

/-- Match a literal character sequence at the head of the input, returning the
rest on success. -/
def matchLit : List Char → List Char → Option (List Char)
  | [], rest => some rest
  | _ :: _, [] => none
  | p :: ps, c :: cs => if p == c then matchLit ps cs else none

/-- Decimal value of a digit run. -/
def digitsToNat (ds : List Char) : ℕ :=
  ds.foldl (fun n c => 10 * n + (c.toNat - '0'.toNat)) 0

/-- jsParseInt on the strings handled here: skip leading whitespace and read a
leading decimal digit run; none models NaN. -/
def jsParseInt (s : String) : Option ℕ :=
  let cs := s.toList.dropWhile isJsSpace
  let ds := cs.takeWhile Char.isDigit
  if ds.isEmpty then none else some (digitsToNat ds)

/-- Try the regex `:(\d+)\s+\(LISTEN\)` anchored at the current position: a
colon, a nonempty digit run, nonempty whitespace, then the literal (LISTEN). -/
def tryListenAt : List Char → Option ℕ
  | ':' :: rest =>
    let ds := rest.takeWhile Char.isDigit
    if ds.isEmpty then none
    else
      let r2 := rest.drop ds.length
      let sp := r2.takeWhile isJsSpace
      if sp.isEmpty then none
      else
        let r3 := r2.drop sp.length
        if (matchLit "(LISTEN)".toList r3).isSome then some (digitsToNat ds) else none
  | _ => none

/-- Leftmost match of `:(\d+)\s+\(LISTEN\)` in a line. -/
def scanListen : List Char → Option ℕ
  | [] => none
  | c :: cs =>
    match tryListenAt (c :: cs) with
    | some p => some p
    | none => scanListen cs

/-- Try the regex `:(\d+)\s` anchored at the current position. -/
def tryPortSpaceAt : List Char → Option ℕ
  | ':' :: rest =>
    let ds := rest.takeWhile Char.isDigit
    if ds.isEmpty then none
    else
      match rest.drop ds.length with
      | c :: _ => if isJsSpace c then some (digitsToNat ds) else none
      | [] => none
  | _ => none

/-- Leftmost match of `:(\d+)\s` in a line. -/
def scanPortSpace : List Char → Option ℕ
  | [] => none
  | c :: cs =>
    match tryPortSpaceAt (c :: cs) with
    | some p => some p
    | none => scanPortSpace cs

/-- Try the regex `:(\d+)$` anchored at the current position: a colon followed
by a nonempty digit run reaching the end of the string. -/
def tryPortEndAt : List Char → Option ℕ
  | ':' :: rest =>
    if ¬ rest.isEmpty ∧ rest.all Char.isDigit then some (digitsToNat rest) else none
  | _ => none

/-- Leftmost match of `:(\d+)$` in a string. -/
def scanPortEnd : List Char → Option ℕ
  | [] => none
  | c :: cs =>
    match tryPortEndAt (c :: cs) with
    | some p => some p
    | none => scanPortEnd cs

/-- Split a character list at every occurrence of a separator character,
keeping empty pieces (the behaviour of the JS string split on a character). -/
def splitOnChar (c : Char) : List Char → List (List Char)
  | [] => [[]]
  | x :: xs =>
    match splitOnChar c xs with
    | [] => [[]]
    | piece :: rest => if x == c then [] :: piece :: rest else (x :: piece) :: rest

/-- JS `stdout.split(newline)`. -/
def splitLinesStr (s : String) : List String :=
  (splitOnChar '\n' s.toList).map String.mk

/-- Split a character list at every character satisfying the predicate. -/
def splitOnPred (p : Char → Bool) : List Char → List (List Char)
  | [] => [[]]
  | x :: xs =>
    match splitOnPred p xs with
    | [] => [[]]
    | piece :: rest => if p x then [] :: piece :: rest else (x :: piece) :: rest

/-- The push guarded by `!ports.includes(port)` in every discovery loop. -/
def pushIfNew (ports : List ℕ) (p : ℕ) : List ℕ :=
  if p ∈ ports then ports else ports ++ [p]

/-- The shared shape of the Unix discovery loops: split stdout into lines, try
the line regex, collect ports without duplicates. -/
def parsePortsWith (tryLine : String → Option ℕ) (stdout : String) : List ℕ :=
  (splitLinesStr stdout).foldl
    (fun ports line =>
      match tryLine line with
      | some p => pushIfNew ports p
      | none => ports)
    []

/-- discoverPortsOnMacOS from src/lib/local/port-detective.ts: parse the lsof
output, with any command failure collapsing to the empty list. -/
def discoverPortsOnMacOS (lsofResult : Except Unit String) : List ℕ :=
  match lsofResult with
  | Except.error _ => []
  | Except.ok stdout => parsePortsWith (fun line => scanListen line.toList) stdout

/-- The netstat fallback of Linux discovery. -/
def discoverPortsOnLinuxNetstat (netstatResult : Except Unit String) : List ℕ :=
  match netstatResult with
  | Except.error _ => []
  | Except.ok stdout => parsePortsWith (fun line => scanPortSpace line.toList) stdout

/-- discoverPortsOnLinux from src/lib/local/port-detective.ts: ss first; on a
command failure or an empty result, fall back to netstat. -/
def discoverPortsOnLinux (ssResult netstatResult : Except Unit String) : List ℕ :=
  match ssResult with
  | Except.error _ => discoverPortsOnLinuxNetstat netstatResult
  | Except.ok stdout =>
    let ports := parsePortsWith (fun line => scanPortSpace line.toList) stdout
    if ¬ ports.isEmpty then ports else discoverPortsOnLinuxNetstat netstatResult

/-- Substring test used for `line.includes(LISTENING)`. -/
def containsLit (sub : List Char) : List Char → Bool
  | [] => (matchLit sub []).isSome
  | c :: cs => (matchLit sub (c :: cs)).isSome || containsLit sub cs

/-- JS `trim().split(/\s+/)` on a string containing a non-space character:
whitespace-run-separated fields (trimming plus run-collapsing is dropping the
empty pieces of the single-character split). -/
def splitWsRuns (s : String) : List String :=
  ((splitOnPred isJsSpace s.toList).map String.mk).filter (fun piece => piece ≠ "")

/-- The line loop of discoverPortsOnWindows.  Returns none when the JS code
throws (accessing parts[1] that does not exist), which the enclosing catch
turns into the empty list. -/
def winLoop (pid : ℕ) : List String → List ℕ → Option (List ℕ)
  | [], ports => some ports
  | line :: rest, ports =>
    if containsLit "LISTENING".toList line.toList then
      match jsParseInt ((splitWsRuns line).getLast?.getD "") with
      | some linePid =>
        if linePid = pid then
          match (splitWsRuns line)[1]? with
          | none => none
          | some localAddr =>
            match scanPortEnd localAddr.toList with
            | some p => winLoop pid rest (pushIfNew ports p)
            | none => winLoop pid rest ports
        else winLoop pid rest ports
      | none => winLoop pid rest ports
    else winLoop pid rest ports

/-- discoverPortsOnWindows from src/lib/local/port-detective.ts. -/
def discoverPortsOnWindows (pid : ℕ) (netstatResult : Except Unit String) : List ℕ :=
  match netstatResult with
  | Except.error _ => []
  | Except.ok stdout =>
    match winLoop pid (splitLinesStr stdout) [] with
    | some ports => ports
    | none => []

/-- The platform switch of discoverPorts. -/
inductive OsPlatform where
  | win32
  | darwin
  | linuxOther
deriving DecidableEq, Repr

/-- discoverPorts from src/lib/local/port-detective.ts: dispatch on the
platform; each platform command outcome is supplied as an argument. -/
def discoverPorts (platform : OsPlatform) (pid : ℕ)
    (lsofResult ssResult netstatLinuxResult netstatWinResult : Except Unit String) :
    List ℕ :=
  match platform with
  | OsPlatform.win32 => discoverPortsOnWindows pid netstatWinResult
  | OsPlatform.darwin => discoverPortsOnMacOS lsofResult
  | OsPlatform.linuxOther => discoverPortsOnLinux ssResult netstatLinuxResult

/- Process detector argument extraction, from extractArgument in
src/lib/local/process-detector.ts. -/

/-- Case-insensitive literal match (the i regex flag), returning the rest of
the input. -/
def matchLitCI : List Char → List Char → Option (List Char)
  | [], rest => some rest
  | _ :: _, [] => none
  | p :: ps, c :: cs => if p.toLower == c.toLower then matchLitCI ps cs else none

/-- The capture alternation of extractArgument, tried at the current position:
a nonempty run without whitespace or quotes, a double-quoted span, or a
single-quoted span (quotes included in the capture, as in the source regex). -/
def takeValueChars (cs : List Char) : Option (List Char) :=
  let run := cs.takeWhile (fun c => !(isJsSpace c) && c != '"' && c != '\'')
  if ¬ run.isEmpty then some run
  else
    match cs with
    | '"' :: rest =>
      let content := rest.takeWhile (fun c => c != '"')
      match rest.drop content.length with
      | '"' :: _ => some ('"' :: (content ++ ['"']))
      | _ => none
    | '\'' :: rest =>
      let content := rest.takeWhile (fun c => c != '\'')
      match rest.drop content.length with
      | '\'' :: _ => some ('\'' :: (content ++ ['\'']))
      | _ => none
    | _ => none

/-- Try the `argName=value` pattern anchored at the current position. -/
def tryEqAt (argChars cs : List Char) : Option (List Char) :=
  match matchLitCI argChars cs with
  | some rest =>
    match rest with
    | '=' :: rest2 => takeValueChars rest2
    | _ => none
  | none => none

/-- Leftmost match of the `argName=value` pattern. -/
def scanEq (argChars : List Char) : List Char → Option (List Char)
  | [] => tryEqAt argChars []
  | c :: cs =>
    match tryEqAt argChars (c :: cs) with
    | some v => some v
    | none => scanEq argChars cs

/-- Try the `argName\s+value` pattern anchored at the current position. -/
def trySpaceAt (argChars cs : List Char) : Option (List Char) :=
  match matchLitCI argChars cs with
  | some rest =>
    let sp := rest.takeWhile isJsSpace
    if sp.isEmpty then none else takeValueChars (rest.drop sp.length)
  | none => none

/-- Leftmost match of the `argName\s+value` pattern. -/
def scanSpace (argChars : List Char) : List Char → Option (List Char)
  | [] => trySpaceAt argChars []
  | c :: cs =>
    match trySpaceAt argChars (c :: cs) with
    | some v => some v
    | none => scanSpace argChars cs

/-- The replace of `^["n]|["n]$` (with n the single quote): strip one leading
and one trailing quote character. -/
def stripQuotes (l : List Char) : List Char :=
  let l1 :=
    match l with
    | c :: rest => if c == '"' || c == '\'' then rest else l
    | [] => l
  match l1.getLast? with
  | some c => if c == '"' || c == '\'' then l1.dropLast else l1
  | none => l1

/-- extractArgument from src/lib/local/process-detector.ts: the eq form over
the whole command line first, then the space form, with quote stripping. -/
def extractArgument (commandLine argName : String) : Option String :=
  match scanEq argName.toList commandLine.toList with
  | some v => some (String.mk (stripQuotes v))
  | none =>
    match scanSpace argName.toList commandLine.toList with
    | some v => some (String.mk (stripQuotes v))
    | none => none

/-- The csrf token and extension server port extraction shared by the process
detectors: empty extractions are dropped by the JS truthiness guard, and a
found port string goes through parseInt. -/
def parseCommandLineArgs (commandLine : String) : Option String × Option ℕ :=
  let csrf :=
    match extractArgument commandLine "--csrf_token" with
    | some s => if s ≠ "" then some s else none
    | none => none
  let port :=
    match extractArgument commandLine "--extension_server_port" with
    | some s => if s ≠ "" then jsParseInt s else none
    | none => none
  (csrf, port)

/-- The concrete full-quota snapshot used to witness C1 and C2. -/
def fullQuotaSnap : QuotaSnapshot :=
  { timestamp := "t"
    method := QuotaMethod.local
    models := [{ label := "L", modelId := "m", remainingPercentage := some 1,
                 isExhausted := false, resetTime := none, timeUntilResetMs := some 100 }] }

/-- A full-quota snapshot whose model carries no reset countdown, used as the
C2 counterexample input. -/
def fullQuotaNoResetSnap : QuotaSnapshot :=
  { timestamp := "t"
    method := QuotaMethod.local
    models := [{ label := "L", modelId := "m", remainingPercentage := some 1,
                 isExhausted := false, resetTime := none, timeUntilResetMs := none }] }

/-- The single concrete upsert operation used to witness C4. -/
def witnessOp : UpsertOp :=
  { email := "a", snapshot := fullQuotaNoResetSnap, now := 5 }

/-- A ConnectUserStatus whose single model explicitly reports isExhausted
false while its quota reports remainingPercentage 0: the C3 counterexample
input. -/
def exhaustedFalseStatus : ConnectUserStatus :=
  { quota := some
      { models := some [{ modelId := "m",
                          quota := some { remainingPercentage := some 0 },
                          isExhausted := some false }] } }

/-- A ConnectUserStatus whose single model reports remainingPercentage 0 and
leaves isExhausted undefined, used to witness the amended C3. -/
def zeroQuotaStatus : ConnectUserStatus :=
  { quota := some
      { models := some [{ modelId := "m",
                          quota := some { remainingPercentage := some 0 } }] } }

/-- A raw JS model object whose quotaInfo carries remainingFraction 0, used to
witness the amended C3 on the ConnectClient side. -/
def zeroQuotaJs : JsValue :=
  JsValue.obj [("quotaInfo", JsValue.obj [("remainingFraction", JsValue.num 0)])]

/-- Captured lsof output with the same listening port reported on two lines,
used for the C6 concrete example. -/
def macSampleOut : String :=
  "node 123 user 23u IPv4 0t0 TCP *:51234 (LISTEN)\nnode 123 user 24u IPv4 0t0 TCP *:51234 (LISTEN)"

/-- A per-port network behaviour whose secure probe errors and whose plaintext
probe answers 404, used to witness C7. -/
def behHttpsDownHttp404 : ℕ → PortBehavior :=
  fun _ => { httpsOutcome := NetOutcome.err, httpOutcome := NetOutcome.resp 404 }

/-- A network behaviour where only port 2 accepts the secure probe and every
other probe errors, used to witness C8. -/
def behOnlyPort2 : ℕ → PortBehavior :=
  fun p =>
    if p = 2 then { httpsOutcome := NetOutcome.resp 200, httpOutcome := NetOutcome.err }
    else { httpsOutcome := NetOutcome.err, httpOutcome := NetOutcome.err }

/- Lemmas about record lookup and insertion. -/

theorem lookupRec_nil {V : Type} (k : String) : lookupRec ([] : List (String × V)) k = none := rfl

theorem lookupRec_cons {V : Type} (p : String × V) (r : List (String × V)) (k : String) :
    lookupRec (p :: r) k = if p.1 == k then some p.2 else lookupRec r k := by
  by_cases h : p.1 = k
  · simp [lookupRec, List.find?_cons_of_pos, h]
  · have hb : (p.1 == k) = false := by simp [h]
    simp [lookupRec, List.find?_cons_of_neg, hb]

theorem lookupRec_insertRec_self {V : Type} (r : List (String × V)) (k : String) (v : V) :
    lookupRec (insertRec r k v) k = some v := by
  induction r with
  | nil => simp [insertRec, lookupRec_cons]
  | cons p r ih =>
    by_cases h : p.1 = k
    · simp [insertRec, h, lookupRec_cons]
    · have hb : (p.1 == k) = false := by simp [h]
      simp [insertRec, hb, lookupRec_cons, ih]

theorem lookupRec_insertRec_ne {V : Type} (r : List (String × V)) (k : String) (v : V)
    (k2 : String) (h : k2 ≠ k) : lookupRec (insertRec r k v) k2 = lookupRec r k2 := by
  induction r with
  | nil =>
    have hb : (k == k2) = false := by simp [Ne.symm h]
    simp [insertRec, lookupRec_cons, hb]
  | cons p r ih =>
    by_cases hp : p.1 = k
    · have hb : (k == k2) = false := by simp [Ne.symm h]
      have hpk2 : (p.1 == k2) = false := by simp [hp, Ne.symm h]
      simp [insertRec, hp, lookupRec_cons, hb, hpk2]
    · have hb : (p.1 == k) = false := by simp [hp]
      simp [insertRec, hb, lookupRec_cons, ih]

/- Lemmas about the last-occurrence views of snapshots and operation lists. -/

theorem lastWithId?_mem {k : String} {ms : List ModelQuotaInfo} {m : ModelQuotaInfo}
    (h : lastWithId? k ms = some m) : m ∈ ms ∧ m.modelId = k := by
  induction ms with
  | nil => simp [lastWithId?] at h
  | cons m0 ms ih =>
    unfold lastWithId? at h
    cases hrec : lastWithId? k ms with
    | some m2 =>
      rw [hrec] at h
      injection h with h2
      subst h2
      rcases ih hrec with ⟨hmem, hid⟩
      exact ⟨List.mem_cons_of_mem _ hmem, hid⟩
    | none =>
      rw [hrec] at h
      by_cases hid : m0.modelId = k
      · simp [hid] at h
        cases h
        exact ⟨List.mem_cons_self _ _, hid⟩
      · have hb : (m0.modelId == k) = false := by simp [hid]
        simp [hb] at h

theorem lastWithId?_eq_none {k : String} {ms : List ModelQuotaInfo}
    (h : lastWithId? k ms = none) : ∀ m ∈ ms, m.modelId ≠ k := by
  induction ms with
  | nil => simp
  | cons m0 ms ih =>
    unfold lastWithId? at h
    cases hrec : lastWithId? k ms with
    | some m2 => rw [hrec] at h; cases h
    | none =>
      rw [hrec] at h
      intro m hm
      rcases List.mem_cons.mp hm with hm0 | hmem
      · subst hm0
        intro hid
        have hb : (m.modelId == k) = true := by simp [hid]
        simp [hb] at h
      · exact ih hrec m hmem

theorem lastWithId?_isSome_of_mem {k : String} {ms : List ModelQuotaInfo}
    {m : ModelQuotaInfo} (hm : m ∈ ms) (hid : m.modelId = k) :
    (lastWithId? k ms).isSome = true := by
  cases h : lastWithId? k ms with
  | some m2 => rfl
  | none => exact absurd hid (lastWithId?_eq_none h m hm)

theorem lastOpFor?_mem {e : String} {ops : List UpsertOp} {op : UpsertOp}
    (h : lastOpFor? e ops = some op) : op ∈ ops ∧ op.email = e := by
  induction ops with
  | nil => simp [lastOpFor?] at h
  | cons op0 ops ih =>
    unfold lastOpFor? at h
    cases hrec : lastOpFor? e ops with
    | some o =>
      rw [hrec] at h
      injection h with h2
      subst h2
      rcases ih hrec with ⟨hmem, hid⟩
      exact ⟨List.mem_cons_of_mem _ hmem, hid⟩
    | none =>
      rw [hrec] at h
      by_cases hid : op0.email = e
      · simp [hid] at h
        cases h
        exact ⟨List.mem_cons_self _ _, hid⟩
      · have hb : (op0.email == e) = false := by simp [hid]
        simp [hb] at h

theorem lastOpFor?_eq_none {e : String} {ops : List UpsertOp}
    (h : lastOpFor? e ops = none) : ∀ op ∈ ops, op.email ≠ e := by
  induction ops with
  | nil => simp
  | cons op0 ops ih =>
    unfold lastOpFor? at h
    cases hrec : lastOpFor? e ops with
    | some o => rw [hrec] at h; cases h
    | none =>
      rw [hrec] at h
      intro op hop
      rcases List.mem_cons.mp hop with h0 | hmem
      · subst h0
        intro hid
        have hb : (op.email == e) = true := by simp [hid]
        simp [hb] at h
      · exact ih hrec op hmem

/- The lookup of the models record built by upsertAccountQuota. -/

theorem lookupRec_buildFold (now : ℚ) (ex : Option StoredAccountQuota)
    (ms : List ModelQuotaInfo) (acc : List (String × StoredModelQuota)) (k : String) :
    lookupRec
      (ms.foldl
        (fun acc model =>
          insertRec acc model.modelId
            (reconcileModel now (ex.bind (fun a => lookupRec a.models model.modelId)) model))
        acc) k =
      match lastWithId? k ms with
      | some m => some (reconcileModel now (ex.bind (fun a => lookupRec a.models m.modelId)) m)
      | none => lookupRec acc k := by
  induction ms generalizing acc with
  | nil => simp [lastWithId?]
  | cons m0 ms ih =>
    rw [List.foldl_cons, ih]
    cases hrec : lastWithId? k ms with
    | some m2 => simp only [lastWithId?, hrec]
    | none =>
      simp only [lastWithId?, hrec]
      by_cases hid : m0.modelId = k
      · subst hid
        simp [lookupRec_insertRec_self]
      · have hb : (m0.modelId == k) = false := by simp [hid]
        simp only [hb, Bool.false_eq_true, if_false]
        rw [lookupRec_insertRec_ne _ _ _ _ (fun hk => hid hk.symm)]

theorem lookupRec_buildModels (now : ℚ) (ex : Option StoredAccountQuota)
    (ms : List ModelQuotaInfo) (k : String) :
    lookupRec (buildModels now ex ms) k =
      match lastWithId? k ms with
      | some m => some (reconcileModel now (ex.bind (fun a => lookupRec a.models m.modelId)) m)
      | none => none := by
  unfold buildModels
  rw [lookupRec_buildFold]
  cases lastWithId? k ms <;> rfl

/- Projections of toStoredModel and reconcileModel. -/

theorem toStoredModel_resetAt (now : ℚ) (m : ModelQuotaInfo) :
    (toStoredModel now m).resetAt =
      match m.timeUntilResetMs with
      | some t => if t ≠ 0 then now + t else 0
      | none => 0 := rfl

theorem toStoredModel_frozen (now : ℚ) (m : ModelQuotaInfo) :
    (toStoredModel now m).frozenResetMs =
      if m.remainingPercentage.getD 0 ≥ 1 then m.timeUntilResetMs else none := rfl

theorem toStoredModel_pct (now : ℚ) (m : ModelQuotaInfo) :
    (toStoredModel now m).remainingPercentage = m.remainingPercentage.getD 0 := rfl

theorem reconcileModel_resetAt (now : ℚ) (ex : Option StoredModelQuota) (m : ModelQuotaInfo) :
    (reconcileModel now ex m).resetAt =
      match ex with
      | some e =>
        if m.remainingPercentage.getD 0 ≥ 1 ∧ e.resetAt ≠ 0 then e.resetAt
        else (toStoredModel now m).resetAt
      | none => (toStoredModel now m).resetAt := by
  by_cases hpct : m.remainingPercentage.getD 0 ≥ 1
  · have hpct2 : (toStoredModel now m).remainingPercentage ≥ 1 := hpct
    cases ex with
    | none => simp [reconcileModel, hpct2]
    | some e =>
      by_cases hre : e.resetAt ≠ 0
      · cases hfr : optNumTruthy e.frozenResetMs <;>
          simp [reconcileModel, hpct2, hpct, hre, hfr]
      · cases hfr : optNumTruthy e.frozenResetMs <;>
          simp [reconcileModel, hpct2, hpct, hre, hfr]
  · have hpct2 : ¬ (toStoredModel now m).remainingPercentage ≥ 1 := hpct
    cases ex with
    | none => simp [reconcileModel, hpct2]
    | some e => simp [reconcileModel, hpct2, hpct]

theorem reconcileModel_frozen (now : ℚ) (ex : Option StoredModelQuota) (m : ModelQuotaInfo) :
    (reconcileModel now ex m).frozenResetMs =
      match ex with
      | some e =>
        if m.remainingPercentage.getD 0 ≥ 1 ∧ optNumTruthy e.frozenResetMs then e.frozenResetMs
        else (toStoredModel now m).frozenResetMs
      | none => (toStoredModel now m).frozenResetMs := by
  by_cases hpct : m.remainingPercentage.getD 0 ≥ 1
  · have hpct2 : (toStoredModel now m).remainingPercentage ≥ 1 := hpct
    cases ex with
    | none => simp [reconcileModel, hpct2]
    | some e =>
      by_cases hre : e.resetAt ≠ 0
      · cases hfr : optNumTruthy e.frozenResetMs <;>
          simp [reconcileModel, hpct2, hpct, hre, hfr]
      · cases hfr : optNumTruthy e.frozenResetMs <;>
          simp [reconcileModel, hpct2, hpct, hre, hfr]
  · have hpct2 : ¬ (toStoredModel now m).remainingPercentage ≥ 1 := hpct
    cases ex with
    | none => simp [reconcileModel, hpct2]
    | some e => simp [reconcileModel, hpct2, hpct]

theorem reconcileModel_label (now : ℚ) (ex : Option StoredModelQuota) (m : ModelQuotaInfo) :
    (reconcileModel now ex m).label = m.label := by
  cases ex <;> simp only [reconcileModel, toStoredModel] <;> split_ifs <;> rfl

theorem reconcileModel_modelId (now : ℚ) (ex : Option StoredModelQuota) (m : ModelQuotaInfo) :
    (reconcileModel now ex m).modelId = m.modelId := by
  cases ex <;> simp only [reconcileModel, toStoredModel] <;> split_ifs <;> rfl

theorem reconcileModel_pct (now : ℚ) (ex : Option StoredModelQuota) (m : ModelQuotaInfo) :
    (reconcileModel now ex m).remainingPercentage = m.remainingPercentage.getD 0 := by
  cases ex <;> simp only [reconcileModel, toStoredModel] <;> split_ifs <;> rfl

theorem reconcileModel_isExhausted (now : ℚ) (ex : Option StoredModelQuota) (m : ModelQuotaInfo) :
    (reconcileModel now ex m).isExhausted = m.isExhausted := by
  cases ex <;> simp only [reconcileModel, toStoredModel] <;> split_ifs <;> rfl

/- Stability of the reconciled reset-timing fields under a repeated full-quota
snapshot. -/

theorem reconcileModel_stable (now1 now2 : ℚ) (ex : Option StoredModelQuota)
    (m : ModelQuotaInfo)
    (h1 : m.remainingPercentage = some 1)
    (ht : ∀ t, m.timeUntilResetMs = some t → 0 ≤ t)
    (hn : 0 < now1) :
    (reconcileModel now2 (some (reconcileModel now1 ex m)) m).resetAt =
      (reconcileModel now1 ex m).resetAt ∧
    (reconcileModel now2 (some (reconcileModel now1 ex m)) m).frozenResetMs =
      (reconcileModel now1 ex m).frozenResetMs := by
  have hpct : m.remainingPercentage.getD 0 ≥ 1 := by rw [h1]; simp
  cases htur : m.timeUntilResetMs with
  | none =>
    cases ex with
    | none =>
      constructor <;>
        simp [reconcileModel_resetAt, reconcileModel_frozen, toStoredModel_resetAt,
          toStoredModel_frozen, htur, hpct, optNumTruthy]
    | some e =>
      constructor <;>
        simp only [reconcileModel_resetAt, reconcileModel_frozen, toStoredModel_resetAt,
          toStoredModel_frozen, htur, hpct, optNumTruthy, true_and, if_pos] <;>
        split_ifs <;> simp_all [optNumTruthy]
  | some t =>
    have htn : 0 ≤ t := ht t htur
    cases ex with
    | none =>
      constructor <;>
        simp only [reconcileModel_resetAt, reconcileModel_frozen, toStoredModel_resetAt,
          toStoredModel_frozen, htur, hpct, optNumTruthy, true_and, if_pos] <;>
        split_ifs <;> simp_all [optNumTruthy] <;> linarith
    | some e =>
      constructor <;>
        simp only [reconcileModel_resetAt, reconcileModel_frozen, toStoredModel_resetAt,
          toStoredModel_frozen, htur, hpct, optNumTruthy, true_and, if_pos] <;>
        split_ifs <;> simp_all [optNumTruthy] <;> linarith

theorem lookupRec_upsert_self (now : ℚ) (email : String) (snap : QuotaSnapshot)
    (store : QuotaStore) :
    lookupRec (upsertAccountQuota now email snap store) email =
      some { lastUpdated := now, models := buildModels now (lookupRec store email) snap.models } := by
  unfold upsertAccountQuota readQuotaStore
  exact lookupRec_insertRec_self _ _ _

theorem lookupRec_upsert_ne (now : ℚ) (email : String) (snap : QuotaSnapshot)
    (store : QuotaStore) (e : String) (h : e ≠ email) :
    lookupRec (upsertAccountQuota now email snap store) e = lookupRec store e := by
  unfold upsertAccountQuota readQuotaStore
  exact lookupRec_insertRec_ne _ _ _ _ h

/-- C1: calling upsertAccountQuota twice in a row with the same email and an
unchanged full-quota snapshot (every model reporting remainingFraction 1.0)
leaves every stored model's resetAt and frozenResetMs unchanged after the
second call, for every initial store state; wall-clock times are positive and
the snapshot's reset countdowns nonnegative, as the data model prescribes. -/
theorem upsert_full_quota_idempotent (store : QuotaStore) (email : String)
    (snap : QuotaSnapshot) (now1 now2 : ℚ)
    (hn : 0 < now1)
    (hfull : ∀ m ∈ snap.models, m.remainingPercentage = some 1)
    (htur : ∀ m ∈ snap.models, ∀ t, m.timeUntilResetMs = some t → 0 ≤ t) :
    ∀ k, storedResetData
           (upsertAccountQuota now2 email snap (upsertAccountQuota now1 email snap store))
           email k =
         storedResetData (upsertAccountQuota now1 email snap store) email k := by
  intro k
  unfold storedResetData
  rw [lookupRec_upsert_self, lookupRec_upsert_self]
  simp only [Option.some_bind]
  rw [lookupRec_buildModels, lookupRec_buildModels]
  cases hlast : lastWithId? k snap.models with
  | none => simp
  | some m =>
    obtain ⟨hmem, hid⟩ := lastWithId?_mem hlast
    subst hid
    simp only [Option.some_bind]
    rw [lookupRec_buildModels, hlast]
    dsimp only
    have hst := reconcileModel_stable now1 now2
      ((lookupRec store email).bind (fun a => lookupRec a.models m.modelId)) m
      (hfull m hmem) (htur m hmem) hn
    simp [hst.1, hst.2]

/-- Witness for C1 at a concrete store, snapshot and pair of clock readings. -/
theorem upsert_full_quota_idempotent_witness :
    storedResetData
      (upsertAccountQuota 9 "a" fullQuotaSnap (upsertAccountQuota 5 "a" fullQuotaSnap []))
      "a" "m" =
    storedResetData (upsertAccountQuota 5 "a" fullQuotaSnap []) "a" "m" :=
  upsert_full_quota_idempotent [] "a" fullQuotaSnap 5 9 (by norm_num)
    (by intro m hm; simp [fullQuotaSnap] at hm; rw [hm])
    (by intro m hm t htt; simp [fullQuotaSnap] at hm; rw [hm] at htt; simp at htt; rw [← htt]; norm_num)
    "m"

/- The exact condition under which a written model carries frozenResetMs. -/

theorem reconcileModel_frozen_ne_none_iff (now : ℚ) (ex : Option StoredModelQuota)
    (m : ModelQuotaInfo) :
    (reconcileModel now ex m).frozenResetMs ≠ none ↔
      (m.remainingPercentage.getD 0 ≥ 1 ∧
        (m.timeUntilResetMs ≠ none ∨
          ∃ e, ex = some e ∧ optNumTruthy e.frozenResetMs = true)) := by
  rw [reconcileModel_frozen]
  cases ex with
  | none =>
    rw [toStoredModel_frozen]
    by_cases hpct : m.remainingPercentage.getD 0 ≥ 1
    · simp [hpct]
    · simp [hpct]
  | some e =>
    dsimp only
    by_cases hpct : m.remainingPercentage.getD 0 ≥ 1
    · by_cases hfr : optNumTruthy e.frozenResetMs = true
      · rw [if_pos ⟨hpct, hfr⟩]
        cases hef : e.frozenResetMs with
        | none => rw [hef] at hfr; simp [optNumTruthy] at hfr
        | some f =>
          rw [hef] at hfr
          simp [hpct, hef, hfr]
      · rw [if_neg (by rintro ⟨h1, h2⟩; exact hfr h2)]
        rw [toStoredModel_frozen, if_pos hpct]
        simp [hpct, hfr]
    · rw [if_neg (by rintro ⟨h1, h2⟩; exact hpct h1)]
      rw [toStoredModel_frozen, if_neg hpct]
      simp [hpct]

/-- C2 counterexample: upserting a model that reports full quota (1.0) but
carries no timeUntilResetMs writes a StoredModelQuota whose remainingPercentage
is 1 (so remainingFraction was at least 1.0 at write time) and whose
frozenResetMs is NOT set, refuting the if-and-only-if as stated. -/
theorem frozenResetMs_set_iff_counterexample :
    ((lookupRec (upsertAccountQuota 5 "a" fullQuotaNoResetSnap []) "a").bind
        (fun a => lookupRec a.models "m")) =
      some { label := "L", modelId := "m", remainingPercentage := 1,
             isExhausted := false, resetAt := 0, frozenResetMs := none } := by
  decide

/-- C2 (amended): a model written by upsertAccountQuota has frozenResetMs set
if and only if the incoming model reported remainingFraction at least 1.0 at
write time AND either it carried a timeUntilResetMs value or a nonzero
frozenResetMs was already stored for that model id under that email. -/
theorem frozenResetMs_set_iff (now : ℚ) (email k : String) (snap : QuotaSnapshot)
    (store : QuotaStore) (v : StoredModelQuota)
    (h : (lookupRec (upsertAccountQuota now email snap store) email).bind
           (fun a => lookupRec a.models k) = some v) :
    ∃ m ∈ snap.models, m.modelId = k ∧
      (v.frozenResetMs ≠ none ↔
        (m.remainingPercentage.getD 0 ≥ 1 ∧
          (m.timeUntilResetMs ≠ none ∨
            ∃ e, (lookupRec store email).bind (fun a => lookupRec a.models k) = some e ∧
              optNumTruthy e.frozenResetMs = true))) := by
  rw [lookupRec_upsert_self] at h
  simp only [Option.some_bind] at h
  rw [lookupRec_buildModels] at h
  cases hlast : lastWithId? k snap.models with
  | none => rw [hlast] at h; cases h
  | some m =>
    rw [hlast] at h
    dsimp only at h
    obtain ⟨hmem, hid⟩ := lastWithId?_mem hlast
    subst hid
    injection h with hv
    subst hv
    exact ⟨m, hmem, rfl, reconcileModel_frozen_ne_none_iff now _ m⟩

/-- Witness for the amended C2 at a concrete upsert into the empty store. -/
theorem frozenResetMs_set_iff_witness :
    ∃ m ∈ fullQuotaSnap.models, m.modelId = "m" ∧
      (({ label := "L", modelId := "m", remainingPercentage := 1, isExhausted := false,
          resetAt := 105, frozenResetMs := some 100 } : StoredModelQuota).frozenResetMs ≠ none ↔
        (m.remainingPercentage.getD 0 ≥ 1 ∧
          (m.timeUntilResetMs ≠ none ∨
            ∃ e, (lookupRec ([] : QuotaStore) "a").bind (fun a => lookupRec a.models "m") = some e ∧
              optNumTruthy e.frozenResetMs = true))) :=
  frozenResetMs_set_iff 5 "a" "m" fullQuotaSnap []
    { label := "L", modelId := "m", remainingPercentage := 1, isExhausted := false,
      resetAt := 105, frozenResetMs := some 100 }
    (by
      rw [lookupRec_upsert_self]
      simp only [Option.some_bind]
      rw [lookupRec_buildModels]
      norm_num [fullQuotaSnap, lastWithId?, reconcileModel, toStoredModel, optNumTruthy,
        lookupRec_cons, lookupRec_nil])

/- Round-trip lemmas for sequences of upserts. -/

theorem applyUpserts_cons (s0 : QuotaStore) (op : UpsertOp) (ops : List UpsertOp) :
    applyUpserts s0 (op :: ops) =
      applyUpserts (upsertAccountQuota op.now op.email op.snapshot s0) ops := rfl

theorem applyUpserts_untouched (ops : List UpsertOp) (s0 : QuotaStore) (e : String)
    (h : ∀ op ∈ ops, op.email ≠ e) :
    lookupRec (applyUpserts s0 ops) e = lookupRec s0 e := by
  induction ops generalizing s0 with
  | nil => rfl
  | cons op ops ih =>
    rw [applyUpserts_cons, ih _ (fun o ho => h o (List.mem_cons_of_mem _ ho)),
      lookupRec_upsert_ne _ _ _ _ _ (Ne.symm (h op (List.mem_cons_self _ _)))]

theorem lookupRec_upsert_isSome (now : ℚ) (email : String) (snap : QuotaSnapshot)
    (store : QuotaStore) (e : String) :
    (lookupRec (upsertAccountQuota now email snap store) e).isSome = true ↔
      e = email ∨ (lookupRec store e).isSome = true := by
  by_cases h : e = email
  · subst h
    rw [lookupRec_upsert_self]
    simp
  · rw [lookupRec_upsert_ne _ _ _ _ _ h]
    simp [h]

theorem applyUpserts_isSome (ops : List UpsertOp) (s0 : QuotaStore) (e : String) :
    (lookupRec (applyUpserts s0 ops) e).isSome = true ↔
      ((lookupRec s0 e).isSome = true ∨ e ∈ ops.map (fun op => op.email)) := by
  induction ops generalizing s0 with
  | nil => simp [applyUpserts]
  | cons op ops ih =>
    rw [applyUpserts_cons, ih, lookupRec_upsert_isSome]
    simp [List.mem_cons]
    tauto

theorem applyUpserts_lastOp (ops : List UpsertOp) (s0 : QuotaStore) (e : String)
    (op : UpsertOp) (h : lastOpFor? e ops = some op) :
    ∃ a, lookupRec (applyUpserts s0 ops) e = some a ∧
      (∀ k, (lookupRec a.models k).isSome = true ↔
         k ∈ op.snapshot.models.map (fun m => m.modelId)) ∧
      (∀ k v, lookupRec a.models k = some v →
         ∃ m ∈ op.snapshot.models, m.modelId = k ∧ v.label = m.label ∧
           v.modelId = m.modelId ∧ v.remainingPercentage = m.remainingPercentage.getD 0 ∧
           v.isExhausted = m.isExhausted) := by
  induction ops generalizing s0 with
  | nil => cases h
  | cons op0 ops ih =>
    unfold lastOpFor? at h
    cases hrec : lastOpFor? e ops with
    | some o =>
      rw [hrec] at h
      injection h with h2
      subst h2
      rw [applyUpserts_cons]
      exact ih _ hrec
    | none =>
      rw [hrec] at h
      by_cases hem : op0.email = e
      · have hbeq : (op0.email == e) = true := by simp [hem]
        rw [hbeq] at h
        simp only [if_true] at h
        injection h with h2
        subst h2
        subst hem
        rw [applyUpserts_cons, applyUpserts_untouched _ _ _ (lastOpFor?_eq_none hrec),
          lookupRec_upsert_self]
        refine ⟨_, rfl, ?_, ?_⟩
        · intro k
          rw [lookupRec_buildModels]
          cases hlast : lastWithId? k op0.snapshot.models with
          | none =>
            dsimp only
            have hno := lastWithId?_eq_none hlast
            simp only [Option.isSome_none, List.mem_map]
            constructor
            · intro hc; cases hc
            · rintro ⟨m, hm, hid⟩
              exact absurd hid (hno m hm)
          | some m =>
            dsimp only
            obtain ⟨hmem, hid⟩ := lastWithId?_mem hlast
            simp only [Option.isSome_some, List.mem_map, true_iff]
            exact ⟨m, hmem, hid⟩
        · intro k v hv
          rw [lookupRec_buildModels] at hv
          cases hlast : lastWithId? k op0.snapshot.models with
          | none => rw [hlast] at hv; cases hv
          | some m =>
            rw [hlast] at hv
            dsimp only at hv
            injection hv with hv2
            subst hv2
            obtain ⟨hmem, hid⟩ := lastWithId?_mem hlast
            exact ⟨m, hmem, hid, reconcileModel_label _ _ _, reconcileModel_modelId _ _ _,
              reconcileModel_pct _ _ _, reconcileModel_isExhausted _ _ _⟩
      · have hbeq : (op0.email == e) = false := by simp [hem]
        rw [hbeq] at h
        simp at h

/-- C4: after any sequence of upsertAccountQuota calls starting from any store
state, reading the store back returns a mapping whose keys are exactly the
previously present emails together with the upserted emails, and each upserted
email stores exactly the model ids of its latest upserted snapshot, with each
stored model derived from that latest snapshot. -/
theorem readAll_roundtrip (s0 : QuotaStore) (ops : List UpsertOp) :
    (∀ e, (lookupRec (getAllStoredAccounts (applyUpserts s0 ops)) e).isSome = true ↔
       ((lookupRec s0 e).isSome = true ∨ e ∈ ops.map (fun op => op.email))) ∧
    (∀ e op, lastOpFor? e ops = some op →
       ∃ a, lookupRec (getAllStoredAccounts (applyUpserts s0 ops)) e = some a ∧
         (∀ k, (lookupRec a.models k).isSome = true ↔
            k ∈ op.snapshot.models.map (fun m => m.modelId)) ∧
         (∀ k v, lookupRec a.models k = some v →
            ∃ m ∈ op.snapshot.models, m.modelId = k ∧ v.label = m.label ∧
              v.modelId = m.modelId ∧ v.remainingPercentage = m.remainingPercentage.getD 0 ∧
              v.isExhausted = m.isExhausted)) :=
  ⟨fun e => applyUpserts_isSome ops s0 e,
   fun e op h => applyUpserts_lastOp ops s0 e op h⟩

/-- Witness for C4 at a single concrete upsert into the empty store. -/
theorem readAll_roundtrip_witness :
    ∃ a, lookupRec (getAllStoredAccounts (applyUpserts [] [witnessOp])) "a" = some a ∧
      (∀ k, (lookupRec a.models k).isSome = true ↔
         k ∈ witnessOp.snapshot.models.map (fun m => m.modelId)) ∧
      (∀ k v, lookupRec a.models k = some v →
         ∃ m ∈ witnessOp.snapshot.models, m.modelId = k ∧ v.label = m.label ∧
           v.modelId = m.modelId ∧ v.remainingPercentage = m.remainingPercentage.getD 0 ∧
           v.isExhausted = m.isExhausted) :=
  (readAll_roundtrip [] [witnessOp]).2 "a" witnessOp (by rfl)

/-- C3 counterexample: parseLocalQuotaSnapshot applied to a ConnectUserStatus
whose model explicitly carries isExhausted false together with
remainingPercentage 0 produces a ModelQuota with remainingFraction 0 and
isExhausted false, refuting the implication as stated. -/
theorem remaining_zero_exhausted_counterexample :
    ((parseLocalQuotaSnapshot "t" exhaustedFalseStatus).models.map
       (fun m => (m.remainingPercentage, m.isExhausted))) = [(some 0, false)] := by
  decide

/-- C3 (amended): every ModelQuota produced by ConnectClient parseModel with
remainingFraction 0 is exhausted; for parseLocalQuotaSnapshot the implication
holds provided no input model explicitly sets isExhausted to false (the
nullish-coalescing fallback only fires when isExhausted is undefined). -/
theorem remaining_zero_implies_exhausted :
    (∀ (prt : String → Option ℚ) (v : JsValue),
       ((parseModel prt v).quota.bind (fun q => q.remainingPercentage)) = some 0 →
       (parseModel prt v).isExhausted = some true) ∧
    (∀ (nowIso : String) (us : ConnectUserStatus),
       (∀ q ms, us.quota = some q → q.models = some ms →
          ∀ e ∈ ms, e.isExhausted ≠ some false) →
       ∀ mq ∈ (parseLocalQuotaSnapshot nowIso us).models,
         mq.remainingPercentage = some 0 → mq.isExhausted = true) := by
  constructor
  · intro prt v h
    by_cases hobj : isObjectNonNull v = true
    · simp only [parseModel, hobj, if_true] at h ⊢
      simp only [Option.some_bind] at h
      simp [h]
    · simp only [parseModel, hobj] at h
      simp at h
  · intro nowIso us hfb mq hmq h0
    unfold parseLocalQuotaSnapshot at hmq
    cases hq : us.quota with
    | none => rw [hq] at hmq; simp at hmq
    | some q =>
      rw [hq] at hmq
      dsimp only at hmq
      cases hm : q.models with
      | none => rw [hm] at hmq; simp at hmq
      | some ms =>
        rw [hm] at hmq
        dsimp only at hmq
        obtain ⟨e, he, hmap⟩ := List.mem_map.mp hmq
        subst hmap
        have hne := hfb q ms hq hm e he
        simp only [parseModelQuota] at h0 ⊢
        cases hie : e.isExhausted with
        | some b =>
          cases b with
          | false => exact absurd hie hne
          | true => simp [hie]
        | none => simp [hie, h0]

/-- Witness for the amended C3: the local parser marks a zero-fraction model
with undefined isExhausted as exhausted, and parseModel marks a zero-fraction
raw model as exhausted. -/
theorem remaining_zero_implies_exhausted_witness :
    (parseModel (fun _ => none) zeroQuotaJs).isExhausted = some true ∧
    (parseModelQuota
        { modelId := "m", quota := some { remainingPercentage := some 0 } }).isExhausted
      = true :=
  ⟨remaining_zero_implies_exhausted.1 (fun _ => none) zeroQuotaJs (by rfl),
   remaining_zero_implies_exhausted.2 "t" zeroQuotaStatus
     (by
       intro q ms hq hm e he
       simp [zeroQuotaStatus] at hq
       subst hq
       simp at hm
       subst hm
       simp at he
       subst he
       simp)
     (parseModelQuota { modelId := "m", quota := some { remainingPercentage := some 0 } })
     (by simp [parseLocalQuotaSnapshot, zeroQuotaStatus])
     (by rfl)⟩

/-- C10 counterexample: a non-object raw model value (the number 42) has no
numeric remainingFraction, yet parseModel returns isExhausted false, refuting
the claim over every raw model value. -/
theorem unknown_fraction_exhausted_counterexample :
    (parseModel (fun _ => none) (JsValue.num 42)).isExhausted = some false ∧
    ((parseModel (fun _ => none) (JsValue.num 42)).quota.bind
       (fun q => q.remainingPercentage)) = none := by
  constructor <;> rfl

/-- C10 (amended): for every raw model value that passes the object guard
(typeof object and not null), if its quotaInfo carries no numeric
remainingFraction then parseModel returns isExhausted true and an undefined
remainingPercentage. -/
theorem unknown_fraction_exhausted (prt : String → Option ℚ) (v : JsValue)
    (hobj : isObjectNonNull v = true)
    (hnum : jsNumField (jsGet v "quotaInfo") "remainingFraction" = none) :
    (parseModel prt v).isExhausted = some true ∧
    ((parseModel prt v).quota.bind (fun q => q.remainingPercentage)) = none := by
  simp only [parseModel, hobj, if_true, hnum]
  simp

/-- Witness for the amended C10 at a concrete empty raw object. -/
theorem unknown_fraction_exhausted_witness :
    (parseModel (fun _ => none) (JsValue.obj [])).isExhausted = some true ∧
    ((parseModel (fun _ => none) (JsValue.obj [])).quota.bind
       (fun q => q.remainingPercentage)) = none :=
  unknown_fraction_exhausted (fun _ => none) (JsValue.obj []) (by rfl) (by rfl)

/-- C5: argument extraction from the process command line: the spec example
yields token abc123 and port 9000; both the eq and the space forms are
extracted, and single or double quoting is stripped from the value. -/
theorem extractArgument_spec :
    parseCommandLineArgs "--csrf_token=abc123 --extension_server_port 9000" =
      (some "abc123", some 9000) ∧
    extractArgument "--csrf_token=abc123 --extension_server_port 9000" "--csrf_token" =
      some "abc123" ∧
    extractArgument "--csrf_token=abc123 --extension_server_port 9000"
      "--extension_server_port" = some "9000" ∧
    extractArgument "run --tok=value x" "--tok" = some "value" ∧
    extractArgument "run --tok value2 x" "--tok" = some "value2" ∧
    extractArgument "run --tok=\"a b\" x" "--tok" = some "a b" ∧
    extractArgument "run --tok \x27c d\x27 x" "--tok" = some "c d" := by
  refine ⟨?_, ?_, ?_, ?_, ?_, ?_, ?_⟩ <;> rfl

/- Distinctness of discovered ports. -/

theorem pushIfNew_nodup (l : List ℕ) (p : ℕ) (h : l.Nodup) : (pushIfNew l p).Nodup := by
  unfold pushIfNew
  split_ifs with hmem
  · exact h
  · simp [List.nodup_append, h, hmem]

theorem foldl_pushIfNew_nodup (f : String → Option ℕ) (lines : List String)
    (init : List ℕ) (h : init.Nodup) :
    (lines.foldl
      (fun ports line =>
        match f line with
        | some p => pushIfNew ports p
        | none => ports) init).Nodup := by
  induction lines generalizing init with
  | nil => exact h
  | cons l ls ih =>
    rw [List.foldl_cons]
    cases hf : f l
    · exact ih _ h
    · exact ih _ (pushIfNew_nodup _ _ h)

theorem parsePortsWith_nodup (f : String → Option ℕ) (out : String) :
    (parsePortsWith f out).Nodup :=
  foldl_pushIfNew_nodup f _ [] List.nodup_nil

theorem winLoop_nodup (pid : ℕ) (lines : List String) (ports r : List ℕ)
    (h : ports.Nodup) (hr : winLoop pid lines ports = some r) : r.Nodup := by
  induction lines generalizing ports with
  | nil =>
    unfold winLoop at hr
    injection hr with h2
    subst h2
    exact h
  | cons line rest ih =>
    unfold winLoop at hr
    split_ifs at hr with hlst
    · cases hpid : jsParseInt ((splitWsRuns line).getLast?.getD "")
      · rw [hpid] at hr
        exact ih _ h hr
      · rw [hpid] at hr
        dsimp only at hr
        split_ifs at hr with heq
        · cases haddr : (splitWsRuns line)[1]?
          · rw [haddr] at hr
            cases hr
          · rw [haddr] at hr
            dsimp only at hr
            cases hscan : scanPortEnd _
            · rw [hscan] at hr
              exact ih _ h hr
            · rw [hscan] at hr
              exact ih _ (pushIfNew_nodup _ _ h) hr
        · exact ih _ h hr
    · exact ih _ h hr

theorem discoverPortsOnMacOS_nodup (r : Except Unit String) :
    (discoverPortsOnMacOS r).Nodup := by
  cases r
  · exact List.nodup_nil
  · exact parsePortsWith_nodup _ _

theorem discoverPortsOnLinuxNetstat_nodup (r : Except Unit String) :
    (discoverPortsOnLinuxNetstat r).Nodup := by
  cases r
  · exact List.nodup_nil
  · exact parsePortsWith_nodup _ _

theorem discoverPortsOnLinux_nodup (r1 r2 : Except Unit String) :
    (discoverPortsOnLinux r1 r2).Nodup := by
  cases r1 with
  | error e => exact discoverPortsOnLinuxNetstat_nodup r2
  | ok out =>
    simp only [discoverPortsOnLinux]
    split_ifs with hne
    · exact discoverPortsOnLinuxNetstat_nodup r2
    · exact parsePortsWith_nodup _ _

theorem discoverPortsOnWindows_nodup (pid : ℕ) (r : Except Unit String) :
    (discoverPortsOnWindows pid r).Nodup := by
  cases r with
  | error e => exact List.nodup_nil
  | ok out =>
    cases hw : winLoop pid (splitLinesStr out) [] with
    | none => simp [discoverPortsOnWindows, hw]
    | some ports =>
      simp only [discoverPortsOnWindows, hw]
      exact winLoop_nodup _ _ _ _ List.nodup_nil hw

/-- C6: port discovery returns a duplicate-free list on every platform and
never fails its caller: a failed command collapses to the empty list, and the
captured macOS output with repeated star-colon-51234 LISTEN lines enumerates
exactly the port 51234 once. -/
theorem discoverPorts_spec :
    (∀ platform pid r1 r2 r3 r4, (discoverPorts platform pid r1 r2 r3 r4).Nodup) ∧
    discoverPortsOnMacOS (Except.error ()) = [] ∧
    (∀ pid, discoverPortsOnWindows pid (Except.error ()) = []) ∧
    discoverPortsOnLinux (Except.error ()) (Except.error ()) = [] ∧
    discoverPortsOnMacOS (Except.ok macSampleOut) = [51234] := by
  refine ⟨?_, rfl, fun pid => rfl, rfl, ?_⟩
  · intro platform pid r1 r2 r3 r4
    cases platform
    · exact discoverPortsOnWindows_nodup _ _
    · exact discoverPortsOnMacOS_nodup _
    · exact discoverPortsOnLinux_nodup _ _
  · decide

/-- C7: for a single probed port the secure probe comes first and its success
decides the result regardless of the plaintext behaviour; the secure probe is
accepted exactly on a 200 status (any other status, connection error or
timeout is a rejection, not an error); and a port rejecting the secure probe
but answering the plaintext GET with any status (404 included) resolves to an
endpoint over plaintext transport. -/
theorem probePort_spec :
    (∀ (b : ℕ → PortBehavior) (port : ℕ) (r : ProbeResult),
       probeHttps port (b port).httpsOutcome = some r → probePort b port = some r) ∧
    (∀ (port : ℕ) (o : NetOutcome),
       (probeHttps port o).isSome = true ↔ o = NetOutcome.resp 200) ∧
    (∀ (b : ℕ → PortBehavior) (port status : ℕ),
       probeHttps port (b port).httpsOutcome = none →
       (b port).httpOutcome = NetOutcome.resp status →
       probePort b port =
         some { baseUrl := "http://localhost:" ++ toString port,
                protocol := Protocol.http, port := port }) := by
  refine ⟨?_, ?_, ?_⟩
  · intro b port r h
    unfold probePort
    rw [h]
  · intro port o
    cases o with
    | resp s =>
      by_cases h2 : s = 200
      · subst h2
        simp [probeHttps]
      · simp [probeHttps, h2]
    | err => simp [probeHttps]
    | timeout => simp [probeHttps]
  · intro b port status h1 h2
    unfold probePort
    rw [h1]
    simp [probeHttp, h2]

/-- Witness for C7: a port whose secure probe errors and whose plaintext GET
answers 404 resolves to the plaintext endpoint. -/
theorem probePort_spec_witness :
    probePort behHttpsDownHttp404 80 =
      some { baseUrl := "http://localhost:" ++ toString 80,
             protocol := Protocol.http, port := 80 } :=
  probePort_spec.2.2 behHttpsDownHttp404 80 404 (by rfl) (by rfl)

/-- C8: with ports A and B where A's probes both fail and B accepts the secure
probe, probing resolves to the secure endpoint on B in either array order; and
probing returns null whenever every port's probes fail. -/
theorem probeForConnectAPI_spec (b : ℕ → PortBehavior) (A B : ℕ)
    (hA : probePort b A = none)
    (hB : (b B).httpsOutcome = NetOutcome.resp 200) :
    (∃ r, probeForConnectAPI b [A, B] = some r ∧ r.port = B ∧ r.protocol = Protocol.https) ∧
    (∃ r, probeForConnectAPI b [B, A] = some r ∧ r.port = B ∧ r.protocol = Protocol.https) ∧
    (∀ (b2 : ℕ → PortBehavior) (ports : List ℕ),
       (∀ p ∈ ports, probePort b2 p = none) → probeForConnectAPI b2 ports = none) := by
  have hPB : probePort b B =
      some { baseUrl := "https://127.0.0.1:" ++ toString B,
             protocol := Protocol.https, port := B } := by
    unfold probePort
    rw [hB]
    simp [probeHttps]
  refine ⟨?_, ?_, ?_⟩
  · refine ⟨{ baseUrl := "https://127.0.0.1:" ++ toString B,
              protocol := Protocol.https, port := B }, ?_, rfl, rfl⟩
    simp [probeForConnectAPI, hA, hPB]
  · refine ⟨{ baseUrl := "https://127.0.0.1:" ++ toString B,
              protocol := Protocol.https, port := B }, ?_, rfl, rfl⟩
    simp [probeForConnectAPI, hPB]
  · intro b2 ports hall
    induction ports with
    | nil => rfl
    | cons p ps ih =>
      simp [probeForConnectAPI, hall p (List.mem_cons_self _ _),
        ih (fun q hq => hall q (List.mem_cons_of_mem _ hq))]

/-- Witness for C8 with ports 1 and 2 where only port 2 accepts the secure
probe. -/
theorem probeForConnectAPI_spec_witness :
    (∃ r, probeForConnectAPI behOnlyPort2 [1, 2] = some r ∧ r.port = 2 ∧
       r.protocol = Protocol.https) ∧
    (∃ r, probeForConnectAPI behOnlyPort2 [2, 1] = some r ∧ r.port = 2 ∧
       r.protocol = Protocol.https) ∧
    (∀ (b2 : ℕ → PortBehavior) (ports : List ℕ),
       (∀ p ∈ ports, probePort b2 p = none) → probeForConnectAPI b2 ports = none) :=
  probeForConnectAPI_spec behOnlyPort2 1 2 (by rfl) (by rfl)

/-- C9: the status RPC response handling: a 404 yields an error naming the
endpoint path; any other non-2xx status yields an error carrying the response
body; a request error or the 5-second timeout yields an error; and a 2xx
response whose body fails JSON parsing resolves with the raw response text
rather than rejecting. -/
theorem connectRequest_spec :
    (∀ {J : Type} (parseJson : String → Option J) (path body : String),
       connectRequest parseJson path (ReqOutcome.response (some 404) body) =
         Except.error ("Endpoint not found: " ++ path)) ∧
    (∀ {J : Type} (parseJson : String → Option J) (path : String) (status : Option ℕ)
       (body : String),
       jsStatusOk status = false → status ≠ some 404 →
       connectRequest parseJson path (ReqOutcome.response status body) =
         Except.error ("HTTP " ++ statusToString status ++ ": " ++ body)) ∧
    (∀ {J : Type} (parseJson : String → Option J) (path msg : String),
       connectRequest parseJson path (ReqOutcome.netError msg) = Except.error msg) ∧
    (∀ {J : Type} (parseJson : String → Option J) (path : String),
       connectRequest parseJson path ReqOutcome.timedOut =
         Except.error "Request timed out") ∧
    requestTimeoutMs = 5000 ∧
    (∀ {J : Type} (parseJson : String → Option J) (path : String) (status : Option ℕ)
       (body : String),
       jsStatusOk status = true → parseJson body = none →
       connectRequest parseJson path (ReqOutcome.response status body) =
         Except.ok (RawPayload.raw body)) := by
  refine ⟨?_, ?_, ?_, ?_, rfl, ?_⟩
  · intro J pj path body
    rfl
  · intro J pj path status body h1 h2
    simp [connectRequest, h1, h2]
  · intro J pj path msg
    rfl
  · intro J pj path
    rfl
  · intro J pj path status body h1 h2
    simp [connectRequest, h1, h2]

/-- Witness for C9: a 500 response errors with the body in the message, and a
200 response with an unparseable body resolves with the raw text. -/
theorem connectRequest_spec_witness :
    connectRequest (fun _ => (none : Option Unit)) "/p"
        (ReqOutcome.response (some 500) "oops") =
      Except.error ("HTTP " ++ statusToString (some 500) ++ ": " ++ "oops") ∧
    connectRequest (fun _ => (none : Option Unit)) "/p"
        (ReqOutcome.response (some 200) "not json") =
      Except.ok (RawPayload.raw "not json") :=
  ⟨connectRequest_spec.2.1 (fun _ => (none : Option Unit)) "/p" (some 500) "oops"
     (by rfl) (by decide),
   connectRequest_spec.2.2.2.2.2 (fun _ => (none : Option Unit)) "/p" (some 200) "not json"
     (by rfl) (by rfl)⟩
